import Mathlib

/-!
Verification development for the Harmony required-variables prototype.

The embedded code comprises:
* the catalog data model (`collection-data`): collections with variables and
  directed REQUIRES edges given by index pairs;
* the Cypher query `requiredVariableQuery`, whose semantics over a populated
  graph ("all ConceptId/Name pairs reachable from the requested concept IDs
  by one or more REQUIRES hops, DISTINCT") is embedded as a bounded
  fixed-point iteration over index sets;
* `performCypherQuery` / `getRequiredVariables`, including the promise chain
  where a store failure is caught, logged, and the promise resolves with
  `undefined` (modelled as `none`);
* `addRequiredVariables`, which walks the per-collection variable lists,
  queries the store, and appends required variables not already present.
-/

namespace Harmony

/-- A variable as stored in the catalog (`collection-data`, `Variable`). -/
structure Variable where
  conceptId : String
  dataType : String
  name : String
deriving DecidableEq

instance : Inhabited Variable := ⟨⟨"", "", ""⟩⟩

/-- A directed REQUIRES edge, given by indices into a collection's
`variables` array (`collection-data`, `VariableEdge`). -/
structure VariableEdge where
  destinationIndex : Nat
  originIndex : Nat
deriving DecidableEq

/-- A collection: concept ID, name, variables and inter-variable REQUIRES
edges (`collection-data`, `Collection`). -/
structure Collection where
  conceptId : String
  name : String
  variables' : List Variable
  variableEdges : List VariableEdge
deriving DecidableEq

/-- The `meta` part of a CMR UMM variable record; the JSON key is
`concept-id`. -/
structure CmrMeta where
  conceptId : String
deriving DecidableEq

/-- The `umm` part of a CMR UMM variable record. -/
structure CmrUmm where
  Name : String
deriving DecidableEq

/-- The shape produced by `extractVariableResults`:
`\x7b meta: \x7b 'concept-id': conceptId \x7d, umm: \x7b Name: name \x7d \x7d`. -/
structure CmrUmmVariable where
  meta : CmrMeta
  umm : CmrUmm
deriving DecidableEq

instance : Inhabited CmrUmmVariable := ⟨⟨⟨""⟩, ⟨""⟩⟩⟩

/-- Whether the populated graph has a REQUIRES edge from variable index `i`
to variable index `j` (`populate-graph` creates one edge per entry of
`variableEdges`, from origin to destination). -/
def edgeB (c : Collection) (i j : Nat) : Bool :=
  c.variableEdges.any fun e => e.originIndex == i && e.destinationIndex == j

/-- Propositional form of `edgeB`. -/
def Edge (c : Collection) (i j : Nat) : Prop := edgeB c i j = true

instance (c : Collection) (i j : Nat) : Decidable (Edge c i j) := by
  unfold Edge; infer_instance

/-- Catalog indices with a REQUIRES edge from some member of `s`: one
traversal step of the `[:REQUIRES *1..]` pattern. -/
def stepSet (c : Collection) (s : Finset Nat) : Finset Nat :=
  (Finset.range c.variables'.length).filter fun j => ∃ i ∈ s, Edge c i j

/-- One round of growing a visited set by a traversal step. -/
def growOnce (c : Collection) (s : Finset Nat) : Finset Nat :=
  s ∪ stepSet c s

/-- Iterated growth: `n` rounds of `growOnce`. -/
def growN (c : Collection) : Nat → Finset Nat → Finset Nat
  | 0, s => s
  | n + 1, s => growOnce c (growN c n s)

/-- Indices reachable from the seed set by one or more REQUIRES hops:
one step, then closure under further steps (`|variables|` rounds suffice). -/
def queryReach (c : Collection) (seeds : Finset Nat) : Finset Nat :=
  growN c c.variables'.length (stepSet c seeds)

/-- Indices of catalog variables whose ConceptId occurs in the requested
list: the vertices matched by
`WHERE requestedVariable.ConceptId IN $requestedVariableConceptIds`. -/
def seedIndices (c : Collection) (requestedVariableConceptIds : List String) : Finset Nat :=
  (Finset.range c.variables'.length).filter fun i =>
    (c.variables'.getD i default).conceptId ∈ requestedVariableConceptIds

/-- The record shape built by `extractVariableResults` for one result row. -/
def variableRow (v : Variable) : CmrUmmVariable :=
  ⟨⟨v.conceptId⟩, ⟨v.name⟩⟩

/-- Embedded semantics of `requiredVariableQuery` run against the graph
populated from `c`: the DISTINCT ConceptId/Name rows of all variables
reachable from the requested concept IDs by a path of one or more REQUIRES
edges, already mapped through `extractVariableResults`. -/
def variableQueryResult (c : Collection) (requestedVariableConceptIds : List String) :
    List CmrUmmVariable :=
  (((List.range c.variables'.length).filter fun j =>
      j ∈ queryReach c (seedIndices c requestedVariableConceptIds)).map fun j =>
    variableRow (c.variables'.getD j default)).dedup

/-- The JavaScript errors observable in this code path: the `TypeError`
thrown when iterating an `undefined` query result, and the store-failure
error rejected by the neo4j driver. -/
inductive JsError where
  | typeError
  | storeUnavailable
deriving DecidableEq

/-- One backing-store round trip (`session.run` plus result parsing): given
the requested concept IDs it either yields parsed rows or rejects. -/
def StoreRun : Type := (List String) → Except JsError (List CmrUmmVariable)

/-- `performCypherQuery`: runs the query, applies the results callback, and
catches any error with `console.log`, so a rejected store call resolves the
promise with `undefined` (`none`) instead of re-raising. -/
def performCypherQuery (store : StoreRun) (requestedVariableConceptIds : List String) :
    Option (List CmrUmmVariable) :=
  match store requestedVariableConceptIds with
  | .ok rows => some rows
  | .error _ => none

/-- `getRequiredVariables`: opens driver and session (connection handling is
pure I/O and not modelled) and delegates to `performCypherQuery`. -/
def getRequiredVariables (store : StoreRun) (requestedVariableConceptIds : List String) :
    Option (List CmrUmmVariable) :=
  performCypherQuery store requestedVariableConceptIds

/-- One entry of the `varInfos` argument of `addRequiredVariables`: the
`variables` property may be absent (`hasOwnProperty` check), modelled by
`Option`. -/
structure VariableInfo where
  collectionId : String
  variables' : Option (List CmrUmmVariable)
deriving DecidableEq

instance : Inhabited VariableInfo := ⟨⟨"", none⟩⟩

/-- The body of the `requiredVariables.forEach` loop: each required variable
is appended unless a variable with the same concept ID is already in the
(growing) list. -/
def mergeVariables (current required : List CmrUmmVariable) : List CmrUmmVariable :=
  required.foldl
    (fun acc v =>
      if acc.any fun r => r.meta.conceptId == v.meta.conceptId then acc else acc ++ [v])
    current

/-- The observable outcome of one `addRequiredVariables` call: the final
state of the (in-place mutated) `varInfos` array, the error the returned
promise rejected with (if any), and the list of concept-ID lists sent to
the store, in call order. -/
structure RunResult where
  varInfos : List VariableInfo
  thrown : Option JsError
  queries : List (List String)
deriving DecidableEq

/-- `addRequiredVariables`: for each entry owning a `variables` property,
query the store with that entry's concept IDs and append the required
variables not already present.  A failed store call makes
`getRequiredVariables` resolve with `undefined`, so the subsequent
`requiredVariables.forEach` throws a `TypeError`; the loop stops there with
the current entry and all later entries untouched. -/
def addRequiredVariables (store : StoreRun) : List VariableInfo → RunResult
  | [] => ⟨[], none, []⟩
  | vi :: rest =>
    match vi.variables' with
    | none =>
      let r := addRequiredVariables store rest
      ⟨vi :: r.varInfos, r.thrown, r.queries⟩
    | some vars =>
      let requestedVariableConceptIds := vars.map fun v => v.meta.conceptId
      match getRequiredVariables store requestedVariableConceptIds with
      | none => ⟨vi :: rest, some .typeError, [requestedVariableConceptIds]⟩
      | some required =>
        let vi' : VariableInfo := ⟨vi.collectionId, some (mergeVariables vars required)⟩
        let r := addRequiredVariables store rest
        ⟨vi' :: r.varInfos, r.thrown, requestedVariableConceptIds :: r.queries⟩

/-- A store whose query semantics are exactly `requiredVariableQuery` over
the graph populated from collection `c`, and which never fails. -/
def catalogStore (c : Collection) : StoreRun :=
  fun ids => .ok (variableQueryResult c ids)

/-- A store whose every call fails (backing store unreachable). -/
def failStore : StoreRun := fun _ => .error .storeUnavailable

/-- The ATL08 fixture collection (`collection-data`, `atl08`): twelve
variables from Ground Track 1 (left) and their dependency edges. -/
def atl08 : Collection :=
  { conceptId := "C1234714698-EEDTEST"
    name := "ATL08"
    variables' := [
      ⟨"V1237330160-EEDTEST", "int16", "/gt1l/signal_photons/classed_pc_flag"⟩,
      ⟨"V1237330281-EEDTEST", "float32", "/gt1l/land_segments/dem_h"⟩,
      ⟨"V1237332028-EEDTEST", "float32", "/gt1l/land_segments/canopy/h_canopy"⟩,
      ⟨"V1237332356-EEDTEST", "float32", "/gt1l/land_segments/latitude"⟩,
      ⟨"V1237332501-EEDTEST", "float32", "/gt1l/land_segments/longitude"⟩,
      ⟨"V1240989290-EEDTEST", "float64", "/gt1l/signal_photons/delta_time"⟩,
      ⟨"V1240989293-EEDTEST", "int32", "/gt1l/signal_photons/classed_pc_indx"⟩,
      ⟨"V1240989295-EEDTEST", "int8", "/gt1l/signal_photons/d_flag"⟩,
      ⟨"V1240989297-EEDTEST", "int32", "/gt1l/signal_photons/ph_segment_id"⟩,
      ⟨"V1240989299-EEDTEST", "float64", "/gt1l/land_segments/delta_time"⟩,
      ⟨"V1240989301-EEDTEST", "int32", "/gt1l/land_segments/ph_ndx_beg"⟩,
      ⟨"V1240989303-EEDTEST", "int64", "/gt1l/land_segments/n_seg_ph"⟩]
    variableEdges := [
      { originIndex := 0, destinationIndex := 5 },
      { originIndex := 6, destinationIndex := 5 },
      { originIndex := 7, destinationIndex := 5 },
      { originIndex := 8, destinationIndex := 5 },
      { originIndex := 5, destinationIndex := 10 },
      { originIndex := 5, destinationIndex := 11 },
      { originIndex := 10, destinationIndex := 3 },
      { originIndex := 10, destinationIndex := 4 },
      { originIndex := 10, destinationIndex := 9 },
      { originIndex := 11, destinationIndex := 3 },
      { originIndex := 11, destinationIndex := 4 },
      { originIndex := 11, destinationIndex := 9 },
      { originIndex := 1, destinationIndex := 3 },
      { originIndex := 1, destinationIndex := 4 },
      { originIndex := 1, destinationIndex := 9 },
      { originIndex := 2, destinationIndex := 3 },
      { originIndex := 2, destinationIndex := 4 },
      { originIndex := 2, destinationIndex := 9 },
      { originIndex := 3, destinationIndex := 9 },
      { originIndex := 4, destinationIndex := 9 },
      { originIndex := 9, destinationIndex := 3 },
      { originIndex := 9, destinationIndex := 4 },
      { originIndex := 4, destinationIndex := 3 },
      { originIndex := 3, destinationIndex := 4 }] }

/-- The RSSMIF16D fixture collection (`collection-data`, `rssmif16d`):
science variables sharing the grid variables latitude, longitude, time. -/
def rssmif16d : Collection :=
  { conceptId := "C1238392622-EEDTEST"
    name := "RSSMIF16D"
    variables' := [
      ⟨"V1238395074-EEDTEST", "int16", "atmosphere_water_vapor_content"⟩,
      ⟨"V1238395076-EEDTEST", "float32", "latitude"⟩,
      ⟨"V1238395077-EEDTEST", "int16", "rainfall_rate"⟩,
      ⟨"V1238395078-EEDTEST", "int16", "atmosphere_cloud_liquid_water_content"⟩,
      ⟨"V1238395080-EEDTEST", "float32", "longitude"⟩,
      ⟨"V1238395084-EEDTEST", "int16", "sst_dtime"⟩,
      ⟨"V1238395085-EEDTEST", "int16", "wind_speed"⟩,
      ⟨"V1238395086-EEDTEST", "int16", "time"⟩]
    variableEdges := [
      { originIndex := 0, destinationIndex := 1 },
      { originIndex := 0, destinationIndex := 4 },
      { originIndex := 0, destinationIndex := 7 },
      { originIndex := 2, destinationIndex := 1 },
      { originIndex := 2, destinationIndex := 4 },
      { originIndex := 2, destinationIndex := 7 },
      { originIndex := 3, destinationIndex := 1 },
      { originIndex := 3, destinationIndex := 4 },
      { originIndex := 3, destinationIndex := 7 },
      { originIndex := 5, destinationIndex := 1 },
      { originIndex := 5, destinationIndex := 4 },
      { originIndex := 5, destinationIndex := 7 },
      { originIndex := 6, destinationIndex := 1 },
      { originIndex := 6, destinationIndex := 4 },
      { originIndex := 6, destinationIndex := 7 }] }

/-- A two-variable collection whose REQUIRES edges form a cycle
(`VA` requires `VB`, `VB` requires `VA`) plus a self-loop on `VA`. -/
def twoCycle : Collection :=
  { conceptId := "C-CYCLE"
    name := "CYCLE"
    variables' := [⟨"VA", "int16", "/a"⟩, ⟨"VB", "int16", "/b"⟩]
    variableEdges := [
      { originIndex := 0, destinationIndex := 1 },
      { originIndex := 1, destinationIndex := 0 },
      { originIndex := 0, destinationIndex := 0 }] }

/-- Every edge of the collection joins variables present in its catalog. -/
def WellFormed (c : Collection) : Prop :=
  ∀ e ∈ c.variableEdges,
    e.originIndex < c.variables'.length ∧ e.destinationIndex < c.variables'.length

instance (c : Collection) : Decidable (WellFormed c) := by
  unfold WellFormed; infer_instance

/-- The effect of one loop iteration of `addRequiredVariables` on a single
entry when its store call (if any) succeeds; an entry whose store call fails
is left unchanged by the thrown `TypeError`. -/
def augmentEntry (store : StoreRun) (vi : VariableInfo) : VariableInfo :=
  match vi.variables' with
  | none => vi
  | some vars =>
    match getRequiredVariables store (vars.map fun v => v.meta.conceptId) with
    | none => vi
    | some required => ⟨vi.collectionId, some (mergeVariables vars required)⟩

/-- A store that answers the query for concept ID list `["VA"]` from the
`twoCycle` catalog and is unreachable for any other query: the later of two
calls fails after the earlier succeeded. -/
def flakyStore : StoreRun := fun ids =>
  if ids = ["VA"] then .ok (variableQueryResult twoCycle ids) else .error .storeUnavailable

/-- The specification's own description of the closure, written from its
words for comparison against the embedded query semantics: identifier `cid`
names a catalog variable reachable from some variable whose concept ID is
in `S` by a path of one or more requires edges. -/
def SpecReachableIdentifier (c : Collection) (S : List String) (cid : String) : Prop :=
  ∃ i j : Nat, i < c.variables'.length ∧
    (c.variables'.getD i default).conceptId ∈ S ∧
    Relation.TransGen (Edge c) i j ∧ j < c.variables'.length ∧
    (c.variables'.getD j default).conceptId = cid

/-! ## Reachability theory for the embedded query -/

lemma stepSet_subset_range (c : Collection) (s : Finset Nat) :
    stepSet c s ⊆ Finset.range c.variables'.length :=
  Finset.filter_subset _ _

lemma stepSet_mono (c : Collection) {s t : Finset Nat} (h : s ⊆ t) :
    stepSet c s ⊆ stepSet c t := by
  intro j hj
  simp only [stepSet, Finset.mem_filter] at hj ⊢
  obtain ⟨hrange, i, hi, hij⟩ := hj
  exact ⟨hrange, i, h hi, hij⟩

lemma subset_growOnce (c : Collection) (s : Finset Nat) : s ⊆ growOnce c s :=
  Finset.subset_union_left

lemma subset_growN (c : Collection) (n : Nat) (s : Finset Nat) : s ⊆ growN c n s := by
  induction n with
  | zero => exact subset_refl s
  | succ n ih => exact ih.trans (subset_growOnce c _)

lemma growN_le (c : Collection) {t : Finset Nat} (ht : stepSet c t ⊆ t) :
    ∀ n {s : Finset Nat}, s ⊆ t → growN c n s ⊆ t := by
  intro n
  induction n with
  | zero => intro s hs; exact hs
  | succ n ih =>
    intro s hs
    exact Finset.union_subset (ih hs) ((stepSet_mono c (ih hs)).trans ht)

lemma growN_subset_range (c : Collection) (n : Nat) {s : Finset Nat}
    (hs : s ⊆ Finset.range c.variables'.length) :
    growN c n s ⊆ Finset.range c.variables'.length :=
  growN_le c (stepSet_subset_range c _) n hs

lemma growN_succ_of_eq (c : Collection) {n : Nat} {s : Finset Nat}
    (h : growN c (n + 1) s = growN c n s) :
    growN c (n + 2) s = growN c (n + 1) s := by
  show growOnce c (growN c (n + 1) s) = growN c (n + 1) s
  rw [h]
  exact h

lemma growN_stable_aux (c : Collection) (s : Finset Nat) :
    ∀ n, growN c (n + 1) s = growN c n s ∨ n + s.card ≤ (growN c n s).card := by
  intro n
  induction n with
  | zero => right; simp [growN]
  | succ n ih =>
    rcases ih with h | h
    · left; exact growN_succ_of_eq c h
    · by_cases he : growN c (n + 1) s = growN c n s
      · left; exact growN_succ_of_eq c he
      · right
        have hsub : growN c n s ⊆ growN c (n + 1) s := subset_growOnce c _
        have hlt : (growN c n s).card < (growN c (n + 1) s).card :=
          Finset.card_lt_card (Finset.ssubset_iff_subset_ne.mpr ⟨hsub, fun hh => he hh.symm⟩)
        omega

lemma growN_fix (c : Collection) {s : Finset Nat}
    (hs : s ⊆ Finset.range c.variables'.length) :
    growN c (c.variables'.length + 1) s = growN c c.variables'.length s := by
  rcases growN_stable_aux c s c.variables'.length with h | h
  · exact h
  · have hsub : growN c c.variables'.length s ⊆ Finset.range c.variables'.length :=
      growN_subset_range c _ hs
    have hcard : (growN c c.variables'.length s).card ≤ c.variables'.length := by
      simpa using Finset.card_le_card hsub
    have heq : growN c c.variables'.length s = Finset.range c.variables'.length :=
      Finset.eq_of_subset_of_card_le hsub (by simp; omega)
    show growOnce c (growN c c.variables'.length s) = growN c c.variables'.length s
    rw [heq]
    exact Finset.union_eq_left.mpr (stepSet_subset_range c _)

lemma stepSet_queryReach (c : Collection) (seeds : Finset Nat) :
    stepSet c (queryReach c seeds) ⊆ queryReach c seeds := by
  have h : growOnce c (queryReach c seeds) = queryReach c seeds :=
    growN_fix c (stepSet_subset_range c seeds)
  exact Finset.union_eq_left.mp h

lemma stepSet_subset_queryReach (c : Collection) (seeds : Finset Nat) :
    stepSet c seeds ⊆ queryReach c seeds :=
  subset_growN c _ _

lemma queryReach_subset_range (c : Collection) (seeds : Finset Nat) :
    queryReach c seeds ⊆ Finset.range c.variables'.length :=
  growN_subset_range c _ (stepSet_subset_range c _)

lemma edge_dest_lt (c : Collection) (hwf : WellFormed c) {i j : Nat} (h : Edge c i j) :
    j < c.variables'.length := by
  unfold Edge edgeB at h
  rw [List.any_eq_true] at h
  obtain ⟨e, he, hb⟩ := h
  rw [Bool.and_eq_true, beq_iff_eq, beq_iff_eq] at hb
  exact hb.2 ▸ (hwf e he).2

lemma mem_stepSet (c : Collection) {s : Finset Nat} {j : Nat} :
    j ∈ stepSet c s ↔ j < c.variables'.length ∧ ∃ i ∈ s, Edge c i j := by
  simp [stepSet, Finset.mem_filter, Finset.mem_range]

/-- The iterated query reach is exactly reachability by a path of one or
more REQUIRES edges from some seed. -/
lemma mem_queryReach (c : Collection) (hwf : WellFormed c) (seeds : Finset Nat) (j : Nat) :
    j ∈ queryReach c seeds ↔ ∃ i ∈ seeds, Relation.TransGen (Edge c) i j := by
  constructor
  · intro hj
    classical
    set t : Finset Nat := (Finset.range c.variables'.length).filter
      (fun k => ∃ i ∈ seeds, Relation.TransGen (Edge c) i k) with ht
    have h1 : stepSet c seeds ⊆ t := by
      intro k hk
      rw [mem_stepSet] at hk
      obtain ⟨hkr, i, hi, hik⟩ := hk
      rw [ht, Finset.mem_filter, Finset.mem_range]
      exact ⟨hkr, i, hi, Relation.TransGen.single hik⟩
    have h2 : stepSet c t ⊆ t := by
      intro k hk
      rw [mem_stepSet] at hk
      obtain ⟨hkr, m, hm, hmk⟩ := hk
      rw [ht, Finset.mem_filter, Finset.mem_range] at hm ⊢
      obtain ⟨hmr, i, hi, him⟩ := hm
      exact ⟨hkr, i, hi, him.tail hmk⟩
    have hq : queryReach c seeds ⊆ t := growN_le c h2 _ h1
    have := hq hj
    rw [ht, Finset.mem_filter] at this
    exact this.2
  · rintro ⟨i, hi, htg⟩
    induction htg with
    | single h =>
      exact stepSet_subset_queryReach c seeds
        ((mem_stepSet c).mpr ⟨edge_dest_lt c hwf h, i, hi, h⟩)
    | tail hik hkj ih =>
      exact stepSet_queryReach c seeds
        ((mem_stepSet c).mpr ⟨edge_dest_lt c hwf hkj, _, ih, hkj⟩)

/-! ## Merge policy lemmas -/

lemma mergeVariables_nil (current : List CmrUmmVariable) :
    mergeVariables current [] = current := rfl

lemma mergeVariables_cons (current : List CmrUmmVariable) (v : CmrUmmVariable)
    (required : List CmrUmmVariable) :
    mergeVariables current (v :: required) =
      mergeVariables
        (if current.any fun r => r.meta.conceptId == v.meta.conceptId then current
         else current ++ [v])
        required := rfl

/-- The merge only ever appends: the current list stays a prefix, and every
appended element came from the required list. -/
lemma mergeVariables_append (required : List CmrUmmVariable) :
    ∀ current, ∃ t, mergeVariables current required = current ++ t ∧
      ∀ v ∈ t, v ∈ required := by
  induction required with
  | nil => intro current; exact ⟨[], by simp [mergeVariables_nil], by simp⟩
  | cons v req ih =>
    intro current
    rw [mergeVariables_cons]
    by_cases h : (current.any fun r => r.meta.conceptId == v.meta.conceptId) = true
    · obtain ⟨t, ht, hmem⟩ := ih current
      rw [if_pos h]
      exact ⟨t, ht, fun x hx => List.mem_cons_of_mem _ (hmem x hx)⟩
    · obtain ⟨t, ht, hmem⟩ := ih (current ++ [v])
      rw [if_neg h]
      refine ⟨v :: t, ?_, ?_⟩
      · rw [ht, List.append_assoc]; rfl
      · intro x hx
        rcases List.mem_cons.mp hx with hx | hx
        · exact hx ▸ List.mem_cons_self v req
        · exact List.mem_cons_of_mem _ (hmem x hx)

lemma subset_mergeVariables (current required : List CmrUmmVariable) :
    ∀ x ∈ current, x ∈ mergeVariables current required := by
  obtain ⟨t, ht, _⟩ := mergeVariables_append required current
  intro x hx
  rw [ht]
  exact List.mem_append_left t hx

/-- If every required variable's concept ID already occurs in the current
list, the merge is a no-op. -/
lemma mergeVariables_eq_self : ∀ {required : List CmrUmmVariable}
    {current : List CmrUmmVariable},
    (∀ v ∈ required, ∃ r ∈ current, r.meta.conceptId = v.meta.conceptId) →
    mergeVariables current required = current
  | [], _, _ => rfl
  | v :: req, current, h => by
    have hv := h v (List.mem_cons_self v req)
    have hany : (current.any fun r => r.meta.conceptId == v.meta.conceptId) = true := by
      rw [List.any_eq_true]
      obtain ⟨r, hr, hre⟩ := hv
      exact ⟨r, hr, beq_iff_eq.mpr hre⟩
    rw [mergeVariables_cons, if_pos hany]
    exact mergeVariables_eq_self fun w hw => h w (List.mem_cons_of_mem v hw)

/-- When the required list carries no duplicate concept IDs, the merge
appends exactly the required variables whose concept ID is absent from the
current list, in order. -/
lemma mergeVariables_filter : ∀ {required : List CmrUmmVariable},
    ∀ current : List CmrUmmVariable,
    (required.map fun v => v.meta.conceptId).Nodup →
    mergeVariables current required =
      current ++ required.filter fun v =>
        !(current.any fun r => r.meta.conceptId == v.meta.conceptId)
  | [], current, _ => by simp [mergeVariables_nil]
  | v :: req, current, hn => by
    rw [List.map_cons, List.nodup_cons] at hn
    obtain ⟨hv, hn⟩ := hn
    rw [mergeVariables_cons]
    by_cases h : (current.any fun r => r.meta.conceptId == v.meta.conceptId) = true
    · rw [if_pos h, mergeVariables_filter current hn, List.filter_cons]
      simp [h]
    · rw [if_neg h, mergeVariables_filter (current ++ [v]) hn, List.filter_cons]
      have hcongr : ∀ w ∈ req,
          ((current ++ [v]).any fun r => r.meta.conceptId == w.meta.conceptId) =
            (current.any fun r => r.meta.conceptId == w.meta.conceptId) := by
        intro w hw
        rw [List.any_append]
        have : ([v].any fun r => r.meta.conceptId == w.meta.conceptId) = false := by
          simp only [List.any_cons, List.any_nil, Bool.or_false]
          rw [beq_eq_false_iff_ne]
          intro hvw
          exact hv (hvw ▸ List.mem_map_of_mem (fun x => x.meta.conceptId) hw)
        rw [this, Bool.or_false]
      have hfilter : (req.filter fun w =>
            !((current ++ [v]).any fun r => r.meta.conceptId == w.meta.conceptId)) =
          req.filter fun w =>
            !(current.any fun r => r.meta.conceptId == w.meta.conceptId) :=
        List.filter_congr fun w hw => by rw [hcongr w hw]
      rw [hfilter]
      simp only [Bool.not_eq_true', h, Bool.not_false, if_true]
      rw [List.append_assoc]
      rfl

/-- Every required variable's concept ID occurs in the merged list. -/
lemma mem_ids_mergeVariables : ∀ (required current : List CmrUmmVariable), ∀ v ∈ required,
    v.meta.conceptId ∈ (mergeVariables current required).map fun w => w.meta.conceptId
  | v :: req, current, w, hw => by
    rw [mergeVariables_cons]
    by_cases h : (current.any fun r => r.meta.conceptId == v.meta.conceptId) = true
    · rw [if_pos h]
      rcases List.mem_cons.mp hw with hwv | hwr
      · rw [List.any_eq_true] at h
        obtain ⟨r, hr, hre⟩ := h
        have : r ∈ mergeVariables current req := subset_mergeVariables current req r hr
        subst hwv
        exact List.mem_map.mpr ⟨r, this, beq_iff_eq.mp hre⟩
      · exact mem_ids_mergeVariables req current w hwr
    · rw [if_neg h]
      rcases List.mem_cons.mp hw with hwv | hwr
      · subst hwv
        have : w ∈ current ++ [w] := List.mem_append_right current (List.mem_singleton.mpr rfl)
        exact List.mem_map.mpr
          ⟨w, subset_mergeVariables (current ++ [w]) req w this, rfl⟩
      · exact mem_ids_mergeVariables req (current ++ [v]) w hwr

/-! ## Query result lemmas -/

lemma mem_seedIndices {c : Collection} {ids : List String} {i : Nat} :
    i ∈ seedIndices c ids ↔
      i < c.variables'.length ∧ (c.variables'.getD i default).conceptId ∈ ids := by
  simp [seedIndices, Finset.mem_filter, Finset.mem_range]

lemma mem_variableQueryResult {c : Collection} {S : List String} {v : CmrUmmVariable}
    (h : v ∈ variableQueryResult c S) :
    ∃ j ∈ queryReach c (seedIndices c S), j < c.variables'.length ∧
      v = variableRow (c.variables'.getD j default) := by
  unfold variableQueryResult at h
  rw [List.mem_dedup, List.mem_map] at h
  obtain ⟨j, hj, hv⟩ := h
  rw [List.mem_filter] at hj
  obtain ⟨hjr, hreach⟩ := hj
  exact ⟨j, by simpa using hreach, List.mem_range.mp hjr, hv.symm⟩

lemma variableRow_mem_variableQueryResult {c : Collection} {S : List String} {j : Nat}
    (hj : j ∈ queryReach c (seedIndices c S)) (hjl : j < c.variables'.length) :
    variableRow (c.variables'.getD j default) ∈ variableQueryResult c S := by
  unfold variableQueryResult
  rw [List.mem_dedup, List.mem_map]
  exact ⟨j, List.mem_filter.mpr ⟨List.mem_range.mpr hjl, by simpa using hj⟩, rfl⟩

lemma conceptId_inj {c : Collection}
    (hn : (c.variables'.map fun v => v.conceptId).Nodup)
    {i j : Nat} (hi : i < c.variables'.length) (hj : j < c.variables'.length)
    (h : (c.variables'.getD i default).conceptId = (c.variables'.getD j default).conceptId) :
    i = j := by
  have hil : i < (c.variables'.map fun v => v.conceptId).length := by simpa using hi
  have hjl : j < (c.variables'.map fun v => v.conceptId).length := by simpa using hj
  have hgi : (c.variables'.map fun v => v.conceptId).get ⟨i, hil⟩ =
      (c.variables'.getD i default).conceptId := by
    rw [List.get_eq_getElem, List.getElem_map, List.getD_eq_getElem]
  have hgj : (c.variables'.map fun v => v.conceptId).get ⟨j, hjl⟩ =
      (c.variables'.getD j default).conceptId := by
    rw [List.get_eq_getElem, List.getElem_map, List.getD_eq_getElem]
  have := (List.Nodup.get_inj_iff hn).mp (hgi.trans (h.trans hgj.symm))
  exact congrArg Fin.val this

/-! ## Unfolding lemmas for the augmentation loop -/

lemma getRequiredVariables_catalogStore (c : Collection) (ids : List String) :
    getRequiredVariables (catalogStore c) ids = some (variableQueryResult c ids) := rfl

lemma addRequiredVariables_nil (store : StoreRun) :
    addRequiredVariables store [] = ⟨[], none, []⟩ := rfl

lemma addRequiredVariables_cons_none (store : StoreRun) {vi : VariableInfo}
    (h : vi.variables' = none) (rest : List VariableInfo) :
    addRequiredVariables store (vi :: rest) =
      ⟨vi :: (addRequiredVariables store rest).varInfos,
       (addRequiredVariables store rest).thrown,
       (addRequiredVariables store rest).queries⟩ := by
  simp only [addRequiredVariables, h]

lemma addRequiredVariables_cons_some_ok (store : StoreRun) {vi : VariableInfo}
    {vars required : List CmrUmmVariable}
    (h : vi.variables' = some vars)
    (hs : getRequiredVariables store (vars.map fun v => v.meta.conceptId) = some required)
    (rest : List VariableInfo) :
    addRequiredVariables store (vi :: rest) =
      ⟨⟨vi.collectionId, some (mergeVariables vars required)⟩ ::
          (addRequiredVariables store rest).varInfos,
       (addRequiredVariables store rest).thrown,
       (vars.map fun v => v.meta.conceptId) :: (addRequiredVariables store rest).queries⟩ := by
  simp only [addRequiredVariables, h, hs]

lemma addRequiredVariables_cons_some_fail (store : StoreRun) {vi : VariableInfo}
    {vars : List CmrUmmVariable}
    (h : vi.variables' = some vars)
    (hs : getRequiredVariables store (vars.map fun v => v.meta.conceptId) = none)
    (rest : List VariableInfo) :
    addRequiredVariables store (vi :: rest) =
      ⟨vi :: rest, some .typeError, [vars.map fun v => v.meta.conceptId]⟩ := by
  simp only [addRequiredVariables, h, hs]

lemma augmentEntry_none {store : StoreRun} {vi : VariableInfo}
    (h : vi.variables' = none) : augmentEntry store vi = vi := by
  simp only [augmentEntry, h]

lemma augmentEntry_some_ok {store : StoreRun} {vi : VariableInfo}
    {vars required : List CmrUmmVariable}
    (h : vi.variables' = some vars)
    (hs : getRequiredVariables store (vars.map fun v => v.meta.conceptId) = some required) :
    augmentEntry store vi = ⟨vi.collectionId, some (mergeVariables vars required)⟩ := by
  simp only [augmentEntry, h, hs]

lemma addRequiredVariables_thrown_catalogStore (c : Collection) (vis : List VariableInfo) :
    (addRequiredVariables (catalogStore c) vis).thrown = none := by
  induction vis with
  | nil => rfl
  | cons vi rest ih =>
    cases hv : vi.variables' with
    | none => rw [addRequiredVariables_cons_none _ hv rest]; exact ih
    | some vars =>
      rw [addRequiredVariables_cons_some_ok _ hv
        (getRequiredVariables_catalogStore c _) rest]
      exact ih

/-- Sequential processing: the output array is the already-processed prefix,
each entry augmented, followed by the untouched remainder; only a thrown
error can leave the remainder nonempty. -/
lemma addRequiredVariables_split (store : StoreRun) (vis : List VariableInfo) :
    ∃ k, k ≤ vis.length ∧
      (addRequiredVariables store vis).varInfos =
        (vis.take k).map (augmentEntry store) ++ vis.drop k ∧
      ((addRequiredVariables store vis).thrown = none → k = vis.length) := by
  induction vis with
  | nil => exact ⟨0, by simp [addRequiredVariables_nil]⟩
  | cons vi rest ih =>
    obtain ⟨k, hk, hsplit, hnone⟩ := ih
    cases hv : vi.variables' with
    | none =>
      refine ⟨k + 1, by simpa using hk, ?_, ?_⟩
      · rw [addRequiredVariables_cons_none store hv rest, List.take_succ_cons,
          List.drop_succ_cons, List.map_cons, augmentEntry_none hv, hsplit]
        rfl
      · rw [addRequiredVariables_cons_none store hv rest]
        intro h
        simp [hnone h]
    | some vars =>
      cases hg : getRequiredVariables store (vars.map fun v => v.meta.conceptId) with
      | none =>
        refine ⟨0, Nat.zero_le _, ?_, ?_⟩
        · rw [addRequiredVariables_cons_some_fail store hv hg rest]
          simp
        · rw [addRequiredVariables_cons_some_fail store hv hg rest]
          intro h
          cases h
      | some required =>
        refine ⟨k + 1, by simpa using hk, ?_, ?_⟩
        · rw [addRequiredVariables_cons_some_ok store hv hg rest, List.take_succ_cons,
            List.drop_succ_cons, List.map_cons, augmentEntry_some_ok hv hg, hsplit]
          rfl
        · rw [addRequiredVariables_cons_some_ok store hv hg rest]
          intro h
          simp [hnone h]

/-- Every query the loop issues is the concept-ID list of an entry owning a
`variables` property, in entry order: the issued queries form an initial
segment of the per-entry identifier lists. -/
lemma addRequiredVariables_queries (store : StoreRun) (vis : List VariableInfo) :
    ∃ t, (addRequiredVariables store vis).queries ++ t =
      vis.filterMap fun vi =>
        vi.variables'.map fun vars => vars.map fun v => v.meta.conceptId := by
  induction vis with
  | nil => exact ⟨[], rfl⟩
  | cons vi rest ih =>
    obtain ⟨t, ht⟩ := ih
    cases hv : vi.variables' with
    | none =>
      refine ⟨t, ?_⟩
      rw [addRequiredVariables_cons_none store hv rest, List.filterMap_cons, hv]
      exact ht
    | some vars =>
      cases hg : getRequiredVariables store (vars.map fun v => v.meta.conceptId) with
      | none =>
        refine ⟨rest.filterMap fun vi =>
          vi.variables'.map fun vars => vars.map fun v => v.meta.conceptId, ?_⟩
        rw [addRequiredVariables_cons_some_fail store hv hg rest, List.filterMap_cons, hv]
        rfl
      | some required =>
        refine ⟨t, ?_⟩
        rw [addRequiredVariables_cons_some_ok store hv hg rest, List.filterMap_cons, hv]
        simpa using ht

/-! ## Idempotence core -/

lemma conceptId_mem_merged_of_reach (c : Collection) (vars : List CmrUmmVariable) {j : Nat}
    (hj : j ∈ queryReach c (seedIndices c (vars.map fun v => v.meta.conceptId))) :
    (c.variables'.getD j default).conceptId ∈
      (mergeVariables vars
          (variableQueryResult c (vars.map fun v => v.meta.conceptId))).map
        fun w => w.meta.conceptId := by
  have hjl : j < c.variables'.length :=
    Finset.mem_range.mp (queryReach_subset_range c _ hj)
  have hrow := variableRow_mem_variableQueryResult hj hjl
  have := mem_ids_mergeVariables _ vars _ hrow
  simpa [variableRow] using this

/-- Querying with the concept IDs of an already-augmented list yields only
variables whose concept ID is already in that list. -/
lemma augment_closed (c : Collection) (hwf : WellFormed c)
    (hn : (c.variables'.map fun v => v.conceptId).Nodup)
    (vars : List CmrUmmVariable) :
    ∀ v ∈ variableQueryResult c
        ((mergeVariables vars
            (variableQueryResult c (vars.map fun w => w.meta.conceptId))).map
          fun w => w.meta.conceptId),
      ∃ r ∈ mergeVariables vars
          (variableQueryResult c (vars.map fun w => w.meta.conceptId)),
        r.meta.conceptId = v.meta.conceptId := by
  intro v hv
  obtain ⟨j, hj, hjl, hveq⟩ := mem_variableQueryResult hv
  rw [mem_queryReach c hwf] at hj
  obtain ⟨i, hiseed, htrans⟩ := hj
  rw [mem_seedIndices] at hiseed
  obtain ⟨hil, hid⟩ := hiseed
  rw [List.mem_map] at hid
  obtain ⟨r, hrm, hrid⟩ := hid
  obtain ⟨t, hmt, htsub⟩ :=
    mergeVariables_append (variableQueryResult c (vars.map fun w => w.meta.conceptId)) vars
  have hrcases : r ∈ vars ∨
      r ∈ variableQueryResult c (vars.map fun w => w.meta.conceptId) := by
    rw [hmt] at hrm
    rcases List.mem_append.mp hrm with h | h
    · exact Or.inl h
    · exact Or.inr (htsub r h)
  have hjreach : j ∈ queryReach c (seedIndices c (vars.map fun w => w.meta.conceptId)) := by
    rcases hrcases with hr | hr
    · have hiseed' : i ∈ seedIndices c (vars.map fun w => w.meta.conceptId) :=
        mem_seedIndices.mpr ⟨hil, List.mem_map.mpr ⟨r, hr, hrid⟩⟩
      exact (mem_queryReach c hwf _ j).mpr ⟨i, hiseed', htrans⟩
    · obtain ⟨j', hj', hj'l, hreq⟩ := mem_variableQueryResult hr
      have hidj' : (c.variables'.getD i default).conceptId =
          (c.variables'.getD j' default).conceptId := by
        rw [← hrid, hreq]
        rfl
      have hij' : i = j' := conceptId_inj hn hil hj'l hidj'
      rw [mem_queryReach c hwf] at hj' ⊢
      obtain ⟨s, hs, hstrans⟩ := hj'
      exact ⟨s, hs, hstrans.trans (hij' ▸ htrans)⟩
  have hmem := conceptId_mem_merged_of_reach c vars hjreach
  rw [List.mem_map] at hmem
  obtain ⟨rr, hrrm, hrrid⟩ := hmem
  refine ⟨rr, hrrm, ?_⟩
  rw [hrrid, hveq]
  rfl

/-- Augmenting an already-augmented entry a second time changes nothing. -/
lemma merge_idem (c : Collection) (hwf : WellFormed c)
    (hn : (c.variables'.map fun v => v.conceptId).Nodup)
    (vars : List CmrUmmVariable) :
    mergeVariables
        (mergeVariables vars (variableQueryResult c (vars.map fun w => w.meta.conceptId)))
        (variableQueryResult c
          ((mergeVariables vars
              (variableQueryResult c (vars.map fun w => w.meta.conceptId))).map
            fun w => w.meta.conceptId)) =
      mergeVariables vars (variableQueryResult c (vars.map fun w => w.meta.conceptId)) :=
  mergeVariables_eq_self fun v hv => augment_closed c hwf hn vars v hv

/-! ## Frame lemmas for single entries -/

lemma augmentEntry_frame (store : StoreRun) (vi : VariableInfo) :
    (augmentEntry store vi).collectionId = vi.collectionId ∧
    ∀ vars, vi.variables' = some vars →
      ∃ tail, (augmentEntry store vi).variables' = some (vars ++ tail) := by
  cases hv : vi.variables' with
  | none =>
    rw [augmentEntry_none hv]
    exact ⟨rfl, fun vars hvars => Option.noConfusion hvars⟩
  | some vars =>
    cases hg : getRequiredVariables store (vars.map fun v => v.meta.conceptId) with
    | none =>
      have hfix : augmentEntry store vi = vi := by
        simp only [augmentEntry, hv, hg]
      rw [hfix]
      refine ⟨rfl, fun vars' hvars' => ⟨[], ?_⟩⟩
      rw [List.append_nil, hv]
      exact hvars'
    | some required =>
      rw [augmentEntry_some_ok hv hg]
      obtain ⟨tail, htail, _⟩ := mergeVariables_append required vars
      refine ⟨rfl, fun vars' hvars' => ⟨tail, ?_⟩⟩
      have hveq : vars = vars' := Option.some.inj hvars'
      show some (mergeVariables vars required) = some (vars' ++ tail)
      rw [htail, hveq]

lemma addRequiredVariables_getD (store : StoreRun) (vis : List VariableInfo) (i : Nat)
    (hi : i < vis.length) :
    (addRequiredVariables store vis).varInfos.getD i default =
        augmentEntry store (vis.getD i default) ∨
      (addRequiredVariables store vis).varInfos.getD i default = vis.getD i default := by
  obtain ⟨k, hk, hsplit, _⟩ := addRequiredVariables_split store vis
  rw [hsplit]
  have hlen : ((vis.take k).map (augmentEntry store)).length = k := by
    rw [List.length_map, List.length_take]
    omega
  rcases Nat.lt_or_ge i k with hik | hik
  · left
    rw [List.getD_eq_getElem?_getD, List.getElem?_append_left (by omega),
      List.getElem?_map, List.getElem?_take_of_lt hik,
      List.getElem?_eq_getElem hi, List.getD_eq_getElem _ _ hi]
    rfl
  · right
    rw [List.getD_eq_getElem?_getD, List.getElem?_append_right (by omega), hlen,
      List.getElem?_drop]
    have hki : k + (i - k) = i := by omega
    rw [hki, List.getElem?_eq_getElem hi, List.getD_eq_getElem _ _ hi]
    rfl

lemma addRequiredVariables_length (store : StoreRun) (vis : List VariableInfo) :
    (addRequiredVariables store vis).varInfos.length = vis.length := by
  obtain ⟨k, hk, hsplit, _⟩ := addRequiredVariables_split store vis
  rw [hsplit, List.length_append, List.length_map, List.length_take, List.length_drop]
  omega

/-! ## Empty seed set -/

lemma stepSet_empty (c : Collection) : stepSet c ∅ = ∅ := by
  ext j
  simp [stepSet]

lemma growN_empty (c : Collection) (n : Nat) : growN c n ∅ = ∅ := by
  induction n with
  | zero => rfl
  | succ n ih =>
    show growOnce c (growN c n ∅) = ∅
    rw [ih]
    rw [growOnce, stepSet_empty]
    rfl

lemma seedIndices_nil (c : Collection) : seedIndices c [] = ∅ := by
  ext i
  simp [seedIndices]

lemma variableQueryResult_nil (c : Collection) : variableQueryResult c [] = [] := by
  unfold variableQueryResult queryReach
  rw [seedIndices_nil, stepSet_empty, growN_empty]
  simp

/-! ## Claims -/

/-- C1, counterexample: when the backing store fails, `performCypherQuery`
catches the error and resolves with `undefined` (`none`) rather than
re-raising; the error the augmentation operation rejects with is the
`TypeError` from iterating `undefined`, not a `StoreUnavailableError`. -/
theorem claim_C1_counterexample :
    performCypherQuery failStore ["VA"] = none ∧
    (addRequiredVariables failStore
        [⟨"C-CYCLE", some [⟨⟨"VA"⟩, ⟨"/a"⟩⟩]⟩]).thrown = some JsError.typeError ∧
    (addRequiredVariables failStore
        [⟨"C-CYCLE", some [⟨⟨"VA"⟩, ⟨"/a"⟩⟩]⟩]).thrown ≠ some JsError.storeUnavailable := by
  refine ⟨rfl, rfl, ?_⟩
  decide

/-- C1, amended: a store failure is not converted into an empty or
valid-looking result — `performCypherQuery` resolves with `undefined`
(`none`), and the caller of the augmentation operation observes a thrown
`TypeError` with the affected entry left unaugmented; however no
`StoreUnavailableError` reaches the caller: the original store error is
swallowed by the `catch` handler, which only logs it. -/
theorem claim_C1 (store : StoreRun) (cid : String) (vars : List CmrUmmVariable)
    (e : JsError) (hfail : store (vars.map fun v => v.meta.conceptId) = .error e) :
    performCypherQuery store (vars.map fun v => v.meta.conceptId) = none ∧
    addRequiredVariables store [⟨cid, some vars⟩] =
      ⟨[⟨cid, some vars⟩], some JsError.typeError, [vars.map fun v => v.meta.conceptId]⟩ := by
  have hpq : performCypherQuery store (vars.map fun v => v.meta.conceptId) = none := by
    unfold performCypherQuery
    rw [hfail]
  exact ⟨hpq, addRequiredVariables_cons_some_fail store rfl hpq []⟩

/-- C1, witness: the amended statement at a concrete failing store. -/
theorem claim_C1_witness :
    failStore ["VA"] = Except.error JsError.storeUnavailable ∧
    (performCypherQuery failStore ["VA"] = none ∧
      addRequiredVariables failStore [⟨"CX", some [⟨⟨"VA"⟩, ⟨"/a"⟩⟩]⟩] =
        ⟨[⟨"CX", some [⟨⟨"VA"⟩, ⟨"/a"⟩⟩]⟩], some JsError.typeError, [["VA"]]⟩) :=
  ⟨rfl, claim_C1 failStore "CX" [⟨⟨"VA"⟩, ⟨"/a"⟩⟩] JsError.storeUnavailable rfl⟩

/-- C2: for a well-formed catalog, the identifiers returned by the closure
resolution are exactly those of the catalog variables reachable from some
requested variable by a path of one or more requires edges — the least set
closed under following requires edges from the seeds, with seeds themselves
excluded unless reachable from a seed. -/
theorem claim_C2 (c : Collection) (hwf : WellFormed c) (S : List String) (cid : String) :
    (cid ∈ (variableQueryResult c S).map fun v => v.meta.conceptId) ↔
      SpecReachableIdentifier c S cid := by
  constructor
  · intro h
    rw [List.mem_map] at h
    obtain ⟨v, hv, hvid⟩ := h
    obtain ⟨j, hj, hjl, hveq⟩ := mem_variableQueryResult hv
    rw [mem_queryReach c hwf] at hj
    obtain ⟨i, hi, htrans⟩ := hj
    rw [mem_seedIndices] at hi
    refine ⟨i, j, hi.1, hi.2, htrans, hjl, ?_⟩
    rw [← hvid, hveq]
    rfl
  · rintro ⟨i, j, hil, hiS, htrans, hjl, hcid⟩
    rw [List.mem_map]
    refine ⟨variableRow (c.variables'.getD j default), ?_, hcid⟩
    exact variableRow_mem_variableQueryResult
      ((mem_queryReach c hwf _ j).mpr ⟨i, mem_seedIndices.mpr ⟨hil, hiS⟩, htrans⟩) hjl

/-- C2, witness: on ATL08, requesting `classed_pc_flag` reaches
`ph_ndx_beg` (a three-hop dependency). -/
theorem claim_C2_witness :
    WellFormed atl08 ∧
      SpecReachableIdentifier atl08 ["V1237330160-EEDTEST"] "V1240989301-EEDTEST" :=
  ⟨by decide,
    (claim_C2 atl08 (by decide) ["V1237330160-EEDTEST"] "V1240989301-EEDTEST").mp
      (by decide)⟩

/-- C3, counterexample: a request whose requested-identifier set is empty
(one entry with an empty `variables` array) still issues one store query —
there is no short-circuit before store interaction — although the returned
collection is unchanged. -/
theorem claim_C3_counterexample :
    (addRequiredVariables (catalogStore twoCycle)
        [⟨"C-CYCLE", some []⟩]).queries.length = 1 ∧
    (1 : Nat) ≠ 0 ∧
    (addRequiredVariables (catalogStore twoCycle) [⟨"C-CYCLE", some []⟩]).varInfos =
      [⟨"C-CYCLE", some []⟩] := by
  decide

/-- C3, amended: when every entry's requested-identifier set is empty the
augmentation returns the input unchanged and throws nothing, but it does
not short-circuit: one store query is still issued for every entry owning a
`variables` property; zero queries occur only when no entry owns one. -/
theorem claim_C3 (c : Collection) (vis : List VariableInfo)
    (h : ∀ vi ∈ vis, vi.variables' = none ∨ vi.variables' = some []) :
    (addRequiredVariables (catalogStore c) vis).varInfos = vis ∧
    (addRequiredVariables (catalogStore c) vis).thrown = none ∧
    (addRequiredVariables (catalogStore c) vis).queries.length =
      (vis.filter fun vi => vi.variables'.isSome).length := by
  induction vis with
  | nil => exact ⟨rfl, rfl, rfl⟩
  | cons vi rest ih =>
    have hrest := ih fun w hw => h w (List.mem_cons_of_mem vi hw)
    rcases h vi (List.mem_cons_self vi rest) with hv | hv
    · rw [addRequiredVariables_cons_none _ hv rest]
      refine ⟨?_, hrest.2.1, ?_⟩
      · rw [hrest.1]
      · rw [List.filter_cons]
        simp [hv, hrest.2.2]
    · have hsome : getRequiredVariables (catalogStore c)
          (([] : List CmrUmmVariable).map fun v => v.meta.conceptId) = some [] := by
        rw [getRequiredVariables_catalogStore]
        simp [variableQueryResult_nil]
      rw [addRequiredVariables_cons_some_ok _ hv hsome rest]
      have hvi : (⟨vi.collectionId, some (mergeVariables [] [])⟩ : VariableInfo) = vi := by
        cases vi with
        | mk cid vv =>
          simp only at hv
          rw [mergeVariables_nil, ← hv]
      refine ⟨?_, hrest.2.1, ?_⟩
      · rw [hvi, hrest.1]
      · rw [List.filter_cons]
        simp [hv, hrest.2.2]

/-- C3, witness: the amended statement on a concrete two-entry input. -/
theorem claim_C3_witness :
    (∀ vi ∈ ([⟨"CX", none⟩, ⟨"CY", some []⟩] : List VariableInfo),
        vi.variables' = none ∨ vi.variables' = some []) ∧
    ((addRequiredVariables (catalogStore twoCycle)
        [⟨"CX", none⟩, ⟨"CY", some []⟩]).varInfos =
      [⟨"CX", none⟩, ⟨"CY", some []⟩] ∧
    (addRequiredVariables (catalogStore twoCycle)
        [⟨"CX", none⟩, ⟨"CY", some []⟩]).thrown = none ∧
    (addRequiredVariables (catalogStore twoCycle)
        [⟨"CX", none⟩, ⟨"CY", some []⟩]).queries.length =
      (([⟨"CX", none⟩, ⟨"CY", some []⟩] : List VariableInfo).filter
        fun vi => vi.variables'.isSome).length) :=
  ⟨by decide, claim_C3 twoCycle [⟨"CX", none⟩, ⟨"CY", some []⟩] (by decide)⟩

/-- C4: when the closure list carries no duplicate concept IDs (as the
DISTINCT query guarantees), the merge appends exactly the closure variables
whose identifier is not already in the requested list, and a requested
identifier never gains an extra occurrence in the final output. -/
theorem claim_C4 (current required : List CmrUmmVariable)
    (h : (required.map fun v => v.meta.conceptId).Nodup) :
    mergeVariables current required =
      current ++ required.filter (fun v =>
        !(current.any fun r => r.meta.conceptId == v.meta.conceptId)) ∧
    ∀ cid ∈ current.map fun v => v.meta.conceptId,
      ((mergeVariables current required).map fun v => v.meta.conceptId).count cid =
        (current.map fun v => v.meta.conceptId).count cid := by
  have hfil := mergeVariables_filter current h
  refine ⟨hfil, ?_⟩
  intro cid hcid
  rw [hfil, List.map_append, List.count_append]
  have hzero : ((required.filter fun v =>
      !(current.any fun r => r.meta.conceptId == v.meta.conceptId)).map
        fun v => v.meta.conceptId).count cid = 0 := by
    rw [List.count_eq_zero]
    intro hmem
    rw [List.mem_map] at hmem
    obtain ⟨w, hw, hwid⟩ := hmem
    rw [List.mem_filter] at hw
    obtain ⟨hwreq, hwany⟩ := hw
    rw [List.mem_map] at hcid
    obtain ⟨u, hu, huid⟩ := hcid
    have : (current.any fun r => r.meta.conceptId == w.meta.conceptId) = true :=
      List.any_eq_true.mpr ⟨u, hu, beq_iff_eq.mpr (huid.trans hwid.symm)⟩
    rw [this] at hwany
    cases hwany
  rw [hzero, Nat.add_zero]

/-- C4, witness: merging a concrete closure into a concrete requested list. -/
theorem claim_C4_witness :
    ((([⟨⟨"VB"⟩, ⟨"/b"⟩⟩, ⟨⟨"VA"⟩, ⟨"/a"⟩⟩] : List CmrUmmVariable).map
        fun v => v.meta.conceptId).Nodup) ∧
    (mergeVariables [⟨⟨"VA"⟩, ⟨"/a"⟩⟩] [⟨⟨"VB"⟩, ⟨"/b"⟩⟩, ⟨⟨"VA"⟩, ⟨"/a"⟩⟩] =
        [⟨⟨"VA"⟩, ⟨"/a"⟩⟩] ++
          ([⟨⟨"VB"⟩, ⟨"/b"⟩⟩, ⟨⟨"VA"⟩, ⟨"/a"⟩⟩] : List CmrUmmVariable).filter
            (fun v => !(([⟨⟨"VA"⟩, ⟨"/a"⟩⟩] : List CmrUmmVariable).any
              fun r => r.meta.conceptId == v.meta.conceptId)) ∧
      ∀ cid ∈ ([⟨⟨"VA"⟩, ⟨"/a"⟩⟩] : List CmrUmmVariable).map fun v => v.meta.conceptId,
        ((mergeVariables [⟨⟨"VA"⟩, ⟨"/a"⟩⟩]
            [⟨⟨"VB"⟩, ⟨"/b"⟩⟩, ⟨⟨"VA"⟩, ⟨"/a"⟩⟩]).map fun v => v.meta.conceptId).count cid =
          (([⟨⟨"VA"⟩, ⟨"/a"⟩⟩] : List CmrUmmVariable).map
            fun v => v.meta.conceptId).count cid) :=
  ⟨by decide, claim_C4 [⟨⟨"VA"⟩, ⟨"/a"⟩⟩] [⟨⟨"VB"⟩, ⟨"/b"⟩⟩, ⟨⟨"VA"⟩, ⟨"/a"⟩⟩] (by decide)⟩

/-- C5: augmentation over the catalog store is idempotent — applying
`addRequiredVariables` to its own output array adds no further variables. -/
theorem claim_C5 (c : Collection) (hwf : WellFormed c)
    (hn : (c.variables'.map fun v => v.conceptId).Nodup) (vis : List VariableInfo) :
    (addRequiredVariables (catalogStore c)
        (addRequiredVariables (catalogStore c) vis).varInfos).varInfos =
      (addRequiredVariables (catalogStore c) vis).varInfos := by
  induction vis with
  | nil => rfl
  | cons vi rest ih =>
    cases hv : vi.variables' with
    | none =>
      rw [addRequiredVariables_cons_none (catalogStore c) hv rest]
      dsimp only
      rw [addRequiredVariables_cons_none (catalogStore c) hv
        (addRequiredVariables (catalogStore c) rest).varInfos]
      dsimp only
      rw [ih]
    | some vars =>
      rw [addRequiredVariables_cons_some_ok (catalogStore c) hv
        (getRequiredVariables_catalogStore c _) rest]
      dsimp only
      rw [addRequiredVariables_cons_some_ok (catalogStore c)
        (show (⟨vi.collectionId, some (mergeVariables vars
            (variableQueryResult c (vars.map fun v => v.meta.conceptId)))⟩ :
          VariableInfo).variables' = some (mergeVariables vars
            (variableQueryResult c (vars.map fun v => v.meta.conceptId))) from rfl)
        (getRequiredVariables_catalogStore c _)
        (addRequiredVariables (catalogStore c) rest).varInfos]
      dsimp only
      rw [merge_idem c hwf hn vars, ih]

/-- C5, witness: idempotence on ATL08 with the `classed_pc_flag` request. -/
theorem claim_C5_witness :
    WellFormed atl08 ∧ (atl08.variables'.map fun v => v.conceptId).Nodup ∧
    (addRequiredVariables (catalogStore atl08)
        (addRequiredVariables (catalogStore atl08)
          [⟨"C1234714698-EEDTEST",
            some [⟨⟨"V1237330160-EEDTEST"⟩,
              ⟨"/gt1l/signal_photons/classed_pc_flag"⟩⟩]⟩]).varInfos).varInfos =
      (addRequiredVariables (catalogStore atl08)
        [⟨"C1234714698-EEDTEST",
          some [⟨⟨"V1237330160-EEDTEST"⟩,
            ⟨"/gt1l/signal_photons/classed_pc_flag"⟩⟩]⟩]).varInfos :=
  ⟨by decide, by decide,
    claim_C5 atl08 (by decide) (by decide)
      [⟨"C1234714698-EEDTEST",
        some [⟨⟨"V1237330160-EEDTEST"⟩, ⟨"/gt1l/signal_photons/classed_pc_flag"⟩⟩]⟩]⟩

/-- C6: traversal of the REQUIRES graph terminates even on cyclic graphs
with self-loops: for every collection and seed set the visited set computed
by the bounded iteration is a fixed point — any number of further growth
rounds changes nothing — and on the concrete two-variable cycle (VA
requires VB, VB requires VA, VA requires VA) requesting VA yields exactly
the closure consisting of VA and VB. -/
theorem claim_C6 :
    (∀ (c : Collection) (seeds : Finset Nat) (n : Nat),
        growN c n (queryReach c seeds) = queryReach c seeds) ∧
    addRequiredVariables (catalogStore twoCycle)
        [⟨"C-CYCLE", some [⟨⟨"VA"⟩, ⟨"/a"⟩⟩]⟩] =
      ⟨[⟨"C-CYCLE", some [⟨⟨"VA"⟩, ⟨"/a"⟩⟩, ⟨⟨"VB"⟩, ⟨"/b"⟩⟩]⟩], none, [["VA"]]⟩ := by
  constructor
  · intro c seeds n
    induction n with
    | zero => rfl
    | succ n ih =>
      show growOnce c (growN c n (queryReach c seeds)) = queryReach c seeds
      rw [ih]
      exact Finset.union_eq_left.mpr (stepSet_queryReach c seeds)
  · decide

/-- C7: on the ATL08 fixture, augmenting a request for P0
(`classed_pc_flag`) appends exactly its transitive requirements P5, P10,
P11, P3, P4 and P9, and the resulting identifier set is exactly the seven
claimed concept IDs. -/
theorem claim_C7 :
    addRequiredVariables (catalogStore atl08)
        [⟨"C1234714698-EEDTEST",
          some [⟨⟨"V1237330160-EEDTEST"⟩, ⟨"/gt1l/signal_photons/classed_pc_flag"⟩⟩]⟩] =
      ⟨[⟨"C1234714698-EEDTEST",
          some [⟨⟨"V1237330160-EEDTEST"⟩, ⟨"/gt1l/signal_photons/classed_pc_flag"⟩⟩,
            ⟨⟨"V1237332356-EEDTEST"⟩, ⟨"/gt1l/land_segments/latitude"⟩⟩,
            ⟨⟨"V1237332501-EEDTEST"⟩, ⟨"/gt1l/land_segments/longitude"⟩⟩,
            ⟨⟨"V1240989290-EEDTEST"⟩, ⟨"/gt1l/signal_photons/delta_time"⟩⟩,
            ⟨⟨"V1240989299-EEDTEST"⟩, ⟨"/gt1l/land_segments/delta_time"⟩⟩,
            ⟨⟨"V1240989301-EEDTEST"⟩, ⟨"/gt1l/land_segments/ph_ndx_beg"⟩⟩,
            ⟨⟨"V1240989303-EEDTEST"⟩, ⟨"/gt1l/land_segments/n_seg_ph"⟩⟩]⟩],
       none, [["V1237330160-EEDTEST"]]⟩ ∧
    ((((addRequiredVariables (catalogStore atl08)
          [⟨"C1234714698-EEDTEST",
            some [⟨⟨"V1237330160-EEDTEST"⟩,
              ⟨"/gt1l/signal_photons/classed_pc_flag"⟩⟩]⟩]).varInfos.getD 0
        default).variables'.getD []).map fun v => v.meta.conceptId).toFinset =
      ({"V1237330160-EEDTEST", "V1237332356-EEDTEST", "V1237332501-EEDTEST",
        "V1240989290-EEDTEST", "V1240989299-EEDTEST", "V1240989301-EEDTEST",
        "V1240989303-EEDTEST"} : Finset String) := by
  constructor
  · decide
  · decide

/-- C8, counterexample: with two collection entries where the second store
call fails after the first succeeded, an error is thrown AND the caller's
array is observed partially augmented — the first entry already carries the
appended required variable, so the original collection was not left
unmodified. -/
theorem claim_C8_counterexample :
    (addRequiredVariables flakyStore
        [⟨"C-CYCLE", some [⟨⟨"VA"⟩, ⟨"/a"⟩⟩]⟩,
         ⟨"C2", some [⟨⟨"VB"⟩, ⟨"/b"⟩⟩]⟩]).thrown = some JsError.typeError ∧
    (addRequiredVariables flakyStore
        [⟨"C-CYCLE", some [⟨⟨"VA"⟩, ⟨"/a"⟩⟩]⟩,
         ⟨"C2", some [⟨⟨"VB"⟩, ⟨"/b"⟩⟩]⟩]).varInfos =
      [⟨"C-CYCLE", some [⟨⟨"VA"⟩, ⟨"/a"⟩⟩, ⟨⟨"VB"⟩, ⟨"/b"⟩⟩]⟩,
       ⟨"C2", some [⟨⟨"VB"⟩, ⟨"/b"⟩⟩]⟩] ∧
    ([⟨"C-CYCLE", some [⟨⟨"VA"⟩, ⟨"/a"⟩⟩, ⟨⟨"VB"⟩, ⟨"/b"⟩⟩]⟩,
      ⟨"C2", some [⟨⟨"VB"⟩, ⟨"/b"⟩⟩]⟩] : List VariableInfo) ≠
      [⟨"C-CYCLE", some [⟨⟨"VA"⟩, ⟨"/a"⟩⟩]⟩, ⟨"C2", some [⟨⟨"VB"⟩, ⟨"/b"⟩⟩]⟩] := by
  refine ⟨by decide, by decide, by decide⟩

/-- C8, amended: the operation is not failure-atomic. Either no error is
thrown and every entry was processed, or an error is thrown and the
caller's array consists of the already-augmented prefix of processed
entries followed by the untouched remainder — so partial augmentation is
observable when a later store call fails after an earlier one succeeded. -/
theorem claim_C8 (store : StoreRun) (vis : List VariableInfo) :
    ∃ k, k ≤ vis.length ∧
      (addRequiredVariables store vis).varInfos =
        (vis.take k).map (augmentEntry store) ++ vis.drop k ∧
      ((addRequiredVariables store vis).thrown = none → k = vis.length) :=
  addRequiredVariables_split store vis

/-- C9: a requested identifier present in no catalog is silently ignored:
the closure resolution completes without error and returns exactly the
result for the remaining seeds. -/
theorem claim_C9 (c : Collection) (S : List String) (u : String)
    (hu : u ∉ c.variables'.map fun v => v.conceptId) :
    getRequiredVariables (catalogStore c) (S ++ [u]) =
      some (variableQueryResult c S) ∧
    getRequiredVariables (catalogStore c) (S ++ [u]) =
      getRequiredVariables (catalogStore c) S := by
  have hseed : seedIndices c (S ++ [u]) = seedIndices c S := by
    ext i
    rw [mem_seedIndices, mem_seedIndices]
    constructor
    · rintro ⟨hil, hmem⟩
      refine ⟨hil, ?_⟩
      rcases List.mem_append.mp hmem with h | h
      · exact h
      · exfalso
        rw [List.mem_singleton] at h
        have hmem' : c.variables'.getD i default ∈ c.variables' := by
          rw [List.getD_eq_getElem _ _ hil]
          exact List.getElem_mem hil
        exact hu (h ▸ List.mem_map_of_mem (fun v => v.conceptId) hmem')
    · rintro ⟨hil, hmem⟩
      exact ⟨hil, List.mem_append.mpr (Or.inl hmem)⟩
  have hres : variableQueryResult c (S ++ [u]) = variableQueryResult c S := by
    unfold variableQueryResult queryReach
    rw [hseed]
  constructor
  · rw [getRequiredVariables_catalogStore, hres]
  · rw [getRequiredVariables_catalogStore, getRequiredVariables_catalogStore, hres]

/-- C9, witness: an unknown concept ID appended to an ATL08 request. -/
theorem claim_C9_witness :
    ("V-MISSING" ∉ atl08.variables'.map fun v => v.conceptId) ∧
    (getRequiredVariables (catalogStore atl08)
        (["V1237330160-EEDTEST"] ++ ["V-MISSING"]) =
      some (variableQueryResult atl08 ["V1237330160-EEDTEST"]) ∧
    getRequiredVariables (catalogStore atl08)
        (["V1237330160-EEDTEST"] ++ ["V-MISSING"]) =
      getRequiredVariables (catalogStore atl08) ["V1237330160-EEDTEST"]) :=
  ⟨by decide, claim_C9 atl08 ["V1237330160-EEDTEST"] "V-MISSING" (by decide)⟩

/-- C10: frame conditions of the augmentation loop: the output array has
the same length as the input; an entry without a `variables` property is
returned entirely unchanged; an entry with one keeps its collection ID and
its original variable list as a prefix (only appends, never removals or
reorderings); and the issued store queries are, in order, an initial
segment of the per-entry concept-ID lists of exactly the entries owning a
`variables` property — no query is performed for the others. -/
theorem claim_C10 (store : StoreRun) (vis : List VariableInfo) (i : Nat)
    (hi : i < vis.length) :
    (addRequiredVariables store vis).varInfos.length = vis.length ∧
    ((vis.getD i default).variables' = none →
      (addRequiredVariables store vis).varInfos.getD i default = vis.getD i default) ∧
    (∀ vars, (vis.getD i default).variables' = some vars →
      ((addRequiredVariables store vis).varInfos.getD i default).collectionId =
          (vis.getD i default).collectionId ∧
        ∃ tail, ((addRequiredVariables store vis).varInfos.getD i default).variables' =
          some (vars ++ tail)) ∧
    (∃ t, (addRequiredVariables store vis).queries ++ t =
      vis.filterMap fun vi =>
        vi.variables'.map fun vars => vars.map fun v => v.meta.conceptId) := by
  refine ⟨addRequiredVariables_length store vis, ?_, ?_,
    addRequiredVariables_queries store vis⟩
  · intro hnone
    rcases addRequiredVariables_getD store vis i hi with h | h
    · rw [h, augmentEntry_none hnone]
    · exact h
  · intro vars hvars
    rcases addRequiredVariables_getD store vis i hi with h | h
    · rw [h]
      obtain ⟨hcid, hfr⟩ := augmentEntry_frame store (vis.getD i default)
      exact ⟨hcid, hfr vars hvars⟩
    · rw [h]
      exact ⟨rfl, ⟨[], by rw [List.append_nil]; exact hvars⟩⟩

/-- C10, witness: the frame conditions on a concrete two-entry input over
the two-cycle catalog. -/
theorem claim_C10_witness :
    (1 : Nat) < ([⟨"CX", none⟩, ⟨"C-CYCLE", some [⟨⟨"VA"⟩, ⟨"/a"⟩⟩]⟩] :
        List VariableInfo).length ∧
    ((addRequiredVariables (catalogStore twoCycle)
        [⟨"CX", none⟩, ⟨"C-CYCLE", some [⟨⟨"VA"⟩, ⟨"/a"⟩⟩]⟩]).varInfos.length =
      ([⟨"CX", none⟩, ⟨"C-CYCLE", some [⟨⟨"VA"⟩, ⟨"/a"⟩⟩]⟩] :
        List VariableInfo).length ∧
    ((([⟨"CX", none⟩, ⟨"C-CYCLE", some [⟨⟨"VA"⟩, ⟨"/a"⟩⟩]⟩] :
          List VariableInfo).getD 1 default).variables' = none →
      (addRequiredVariables (catalogStore twoCycle)
          [⟨"CX", none⟩, ⟨"C-CYCLE", some [⟨⟨"VA"⟩, ⟨"/a"⟩⟩]⟩]).varInfos.getD 1 default =
        ([⟨"CX", none⟩, ⟨"C-CYCLE", some [⟨⟨"VA"⟩, ⟨"/a"⟩⟩]⟩] :
          List VariableInfo).getD 1 default) ∧
    (∀ vars, (([⟨"CX", none⟩, ⟨"C-CYCLE", some [⟨⟨"VA"⟩, ⟨"/a"⟩⟩]⟩] :
          List VariableInfo).getD 1 default).variables' = some vars →
      ((addRequiredVariables (catalogStore twoCycle)
            [⟨"CX", none⟩, ⟨"C-CYCLE", some [⟨⟨"VA"⟩, ⟨"/a"⟩⟩]⟩]).varInfos.getD 1
          default).collectionId =
        (([⟨"CX", none⟩, ⟨"C-CYCLE", some [⟨⟨"VA"⟩, ⟨"/a"⟩⟩]⟩] :
          List VariableInfo).getD 1 default).collectionId ∧
      ∃ tail, ((addRequiredVariables (catalogStore twoCycle)
            [⟨"CX", none⟩, ⟨"C-CYCLE", some [⟨⟨"VA"⟩, ⟨"/a"⟩⟩]⟩]).varInfos.getD 1
          default).variables' = some (vars ++ tail)) ∧
    (∃ t, (addRequiredVariables (catalogStore twoCycle)
        [⟨"CX", none⟩, ⟨"C-CYCLE", some [⟨⟨"VA"⟩, ⟨"/a"⟩⟩]⟩]).queries ++ t =
      ([⟨"CX", none⟩, ⟨"C-CYCLE", some [⟨⟨"VA"⟩, ⟨"/a"⟩⟩]⟩] :
          List VariableInfo).filterMap fun vi =>
        vi.variables'.map fun vars => vars.map fun v => v.meta.conceptId)) :=
  ⟨by decide,
    claim_C10 (catalogStore twoCycle)
      [⟨"CX", none⟩, ⟨"C-CYCLE", some [⟨⟨"VA"⟩, ⟨"/a"⟩⟩]⟩] 1 (by decide)⟩

end Harmony
